import Mathlib

/-!
Shallow embedding of the praeses-blackjack round engine.

Sources embedded here:
- src/cards.rs: rank/suit enumeration, standard deck, multideck construction.
- src/blackjack.rs: hand valuation (card_value, get_raw_hand_value,
  is_soft_hand, get_hand_value, hand_is_natural, hand_is_bust), the round
  state machine (handle_naturals, player_turns, check_if_all_players_finished,
  dealer_turn, complete_round, play_round), and the deck lifecycle
  (get_reshuffle_number, ReadyGame::from_previous_round).
- src/blackjack/actors/dealers.rs: Dealer::decide_action.
- src/blackjack/actors/players.rs: AutoPlayer::decide_action and
  HumanPlayer::handle_round_result (AutoPlayer::handle_round_result has the
  same monetary logic).

Machine integers (u32/usize) are modelled as Nat: none of the embedded
arithmetic can overflow u32 in any reachable configuration, and every claim
is stated over the same Nat values the code computes. The f64 payout factor
is modelled as a rational number; the floor-and-truncate conversion
`(payout_ratio * bet as f64).floor() as u32` becomes `(Int.floor (q * bet)).toNat`
(the `as u32` cast saturates negative floats to 0, as `Int.toNat` does).
Fallible operations (Vec::pop().unwrap(), slice indexing, Option::unwrap)
are modelled with Option: a `none` result marks a Rust panic.
-/

namespace Blackjack

/-- Rank of a card (src/cards.rs, enum Rank). -/
inductive Rank where
  | ace | two | three | four | five | six | seven | eight | nine | ten
  | jack | queen | king
deriving DecidableEq, Repr

/-- Suit of a card (src/cards.rs, enum Suit). -/
inductive Suit where
  | club | diamond | heart | spade
deriving DecidableEq, Repr

/-- A playing card (src/cards.rs, struct Card). -/
structure Card where
  rank : Rank
  suit : Suit
deriving DecidableEq, Repr

/-- Blackjack point value of a single card (src/blackjack.rs, card_value). -/
def card_value (c : Card) : Nat :=
  match c.rank with
  | Rank.ace => 1
  | Rank.two => 2
  | Rank.three => 3
  | Rank.four => 4
  | Rank.five => 5
  | Rank.six => 6
  | Rank.seven => 7
  | Rank.eight => 8
  | Rank.nine => 9
  | Rank.ten => 10
  | Rank.jack => 10
  | Rank.queen => 10
  | Rank.king => 10

/-- Raw hand value: sum of fixed card values, aces as 1
(src/blackjack.rs, get_raw_hand_value). -/
def get_raw_hand_value (hand : List Card) : Nat :=
  (hand.map card_value).sum

/-- Soft-hand test: raw value at most 11 and at least one ace
(src/blackjack.rs, is_soft_hand). -/
def is_soft_hand (raw_value : Nat) (hand : List Card) : Bool :=
  decide (raw_value ≤ 11) && hand.any (fun c => c.rank == Rank.ace)

/-- Hand value with the ace upgrade (src/blackjack.rs, get_hand_value). -/
def get_hand_value (hand : List Card) : Nat :=
  let raw_value := get_raw_hand_value hand
  if is_soft_hand raw_value hand then raw_value + 10 else raw_value

/-- Natural: value exactly 21 on exactly two cards
(src/blackjack.rs, hand_is_natural). -/
def hand_is_natural (hand : List Card) : Bool :=
  (get_hand_value hand == 21) && (hand.length == 2)

/-- Bust: value over 21 (src/blackjack.rs, hand_is_bust). -/
def hand_is_bust (hand : List Card) : Bool :=
  decide (21 < get_hand_value hand)

/-- Player / dealer action (src/blackjack/actors.rs, enum Action). -/
inductive Action where
  | Hit | Stand
deriving DecidableEq, Repr

/-- Dealer policy: stand at 17 or more
(src/blackjack/actors/dealers.rs, Dealer::decide_action; the `hand_value`
it calls is the function named `get_hand_value` in src/blackjack.rs). -/
def dealer_decide_action (hand : List Card) : Action :=
  if 17 ≤ get_hand_value hand then Action.Stand else Action.Hit

/-- Bot policy (src/blackjack/actors/players.rs, AutoPlayer::decide_action):
soft hands stand at 18, hard hands use an upcard-dependent threshold. -/
def auto_decide_action (hand : List Card) (dealer_upcard : Card) : Action :=
  if is_soft_hand (get_raw_hand_value hand) hand then
    if 18 ≤ get_hand_value hand then Action.Stand else Action.Hit
  else
    let stop_at : Nat :=
      match dealer_upcard.rank with
      | Rank.ace | Rank.seven | Rank.eight | Rank.nine | Rank.ten
      | Rank.jack | Rank.queen | Rank.king => 17
      | Rank.four | Rank.five | Rank.six => 12
      | Rank.two | Rank.three => 13
    if stop_at ≤ get_hand_value hand then Action.Stand else Action.Hit

/-- Cards in a standard deck (src/cards.rs, STANDARD_DECK_COUNT = 4 suits * 13 ranks). -/
def STANDARD_DECK_COUNT : Nat := 52

/-- All ranks, in declaration order (src/cards.rs, Rank::iter). -/
def allRanks : List Rank :=
  [Rank.ace, Rank.two, Rank.three, Rank.four, Rank.five, Rank.six, Rank.seven,
   Rank.eight, Rank.nine, Rank.ten, Rank.jack, Rank.queen, Rank.king]

/-- All suits, in declaration order (src/cards.rs, Suit::iter). -/
def allSuits : List Suit :=
  [Suit.club, Suit.diamond, Suit.heart, Suit.spade]

/-- One of each unique card, suits outer, ranks inner (src/cards.rs, standard_deck). -/
def standard_deck : List Card :=
  allSuits.flatMap (fun s => allRanks.map (fun r => { rank := r, suit := s }))

/-- Concatenation of `num_decks` standard decks (src/cards.rs, create_multideck:
the Rust loop extends an initially empty Vec `num_decks` times). -/
def create_multideck : Nat → List Card
  | 0 => []
  | n + 1 => create_multideck n ++ standard_deck

/-- Reshuffle threshold (src/blackjack.rs, get_reshuffle_number):
max(40, num_decks * 52 / 5) with integer division. -/
def get_reshuffle_number (num_decks : Nat) : Nat :=
  max 40 (num_decks * STANDARD_DECK_COUNT / 5)

/-- Deck selection of ReadyGame::from_previous_round (src/blackjack.rs):
reuse the leftover deck iff strictly longer than the reshuffle threshold,
otherwise build and shuffle a fresh multideck. The shuffle (src/cards.rs,
shuffle_deck, an RNG permutation) is passed in as a function parameter. -/
def from_previous_round_deck (shuffle : List Card → List Card)
    (num_decks : Nat) (leftover : List Card) : List Card :=
  if get_reshuffle_number num_decks < leftover.length then leftover
  else shuffle (create_multideck num_decks)

/-- Possible results for each player each round
(src/blackjack.rs, enum PlayerRoundResult). -/
inductive PlayerRoundResult where
  | Natural | Win | Lose | Standoff
deriving DecidableEq, Repr

/-- The betting-relevant state of a player: money, per-round bet, hand
(src/blackjack/actors/players.rs, fields of HumanPlayer / AutoPlayer). -/
structure BettingState where
  money : Option Nat
  bet : Option Nat
  hand : List Card
deriving DecidableEq, Repr

/-- Settlement for one player
(src/blackjack/actors/players.rs, HumanPlayer::handle_round_result;
AutoPlayer::handle_round_result is identical up to printed text).
The hand is cleared first; with no active bet nothing else happens. With an
active bet, every branch reads money via Option::unwrap, so a player with a
bet but no money is a panic, modelled as `none`. The payout factor is an f64
in Rust, modelled as a rational; `(payout * bet as f64).floor() as u32` is
`(Int.floor (payout * bet)).toNat`. -/
def handle_round_result (s : BettingState) (result : PlayerRoundResult)
    (payout : ℚ) : Option BettingState :=
  match s.bet with
  | none => some { s with hand := [] }
  | some bet =>
    match s.money with
    | none => none
    | some m =>
      match result with
      | PlayerRoundResult.Natural =>
        let winnings : Nat := bet + (Int.floor (payout * (bet : ℚ))).toNat
        some { money := some (m + winnings), bet := none, hand := [] }
      | PlayerRoundResult.Win =>
        let winnings : Nat := bet + bet
        some { money := some (m + winnings), bet := none, hand := [] }
      | PlayerRoundResult.Standoff =>
        some { money := some (m + bet), bet := none, hand := [] }
      | PlayerRoundResult.Lose =>
        some { money := some m, bet := none, hand := [] }

/-- A player inside the round state machine: an identifier (table position),
the current hand, and the decision policy `decide_action(hand, upcard)`
(src/blackjack/actors/players.rs, trait Player). The human player's
stdin-driven policy and the bot's table are both instances of the function
parameter. -/
structure PlayerState where
  id : Nat
  hand : List Card
  policy : List Card → Card → Action

/-- The in-progress game (src/blackjack.rs, struct InProgressGame):
players in table order, the dealer's hand, and the deck. -/
structure GameState where
  players : List PlayerState
  dealerHand : List Card
  deck : List Card

/-- Either a finished round with results and leftover deck, or a
continuation (src/blackjack.rs, enum IntermediateRoundResult). -/
inductive IntermediateRoundResult where
  | Finished (results : List (PlayerState × PlayerRoundResult))
      (leftover_deck : List Card)
  | Unfinished (game : GameState)

/-- Natural short-circuit (src/blackjack.rs, InProgressGame::handle_naturals):
dealer natural => Standoff for natural players, Lose for the rest; otherwise
all players natural => Natural for all; otherwise continue. -/
def handle_naturals (g : GameState) : IntermediateRoundResult :=
  if hand_is_natural g.dealerHand then
    IntermediateRoundResult.Finished
      (g.players.map (fun p =>
        (p, if hand_is_natural p.hand then PlayerRoundResult.Standoff
            else PlayerRoundResult.Lose)))
      g.deck
  else if g.players.all (fun p => hand_is_natural p.hand) then
    IntermediateRoundResult.Finished
      (g.players.map (fun p => (p, PlayerRoundResult.Natural)))
      g.deck
  else
    IntermediateRoundResult.Unfinished g

/-- One player's hit/stand loop (src/blackjack.rs, the inner loop of
InProgressGame::player_turns): stop on bust, otherwise read the dealer's
upcard (index 1 of the dealer's hand; out of range is a Rust panic), consult
the policy, and on Hit draw from the deck (empty pop is a Rust panic).
Returns the final hand and the remaining deck. -/
def playerLoop (dealerHand : List Card) (policy : List Card → Card → Action) :
    List Card → List Card → Option (List Card × List Card)
  | hand, [] =>
    if hand_is_bust hand then some (hand, [])
    else
      match dealerHand[1]? with
      | none => none
      | some upcard =>
        match policy hand upcard with
        | Action.Stand => some (hand, [])
        | Action.Hit => none
  | hand, c :: rest =>
    if hand_is_bust hand then some (hand, c :: rest)
    else
      match dealerHand[1]? with
      | none => none
      | some upcard =>
        match policy hand upcard with
        | Action.Stand => some (hand, c :: rest)
        | Action.Hit => playerLoop dealerHand policy (hand ++ [c]) rest

/-- One player's whole turn (src/blackjack.rs, InProgressGame::player_turns):
a player holding a natural skips the loop entirely. -/
def playerTurn (dealerHand : List Card) (p : PlayerState)
    (deck : List Card) : Option (PlayerState × List Card) :=
  if hand_is_natural p.hand then some (p, deck)
  else
    match playerLoop dealerHand p.policy p.hand deck with
    | none => none
    | some (h, d) => some ({ p with hand := h }, d)

/-- All players' turns in table order
(src/blackjack.rs, InProgressGame::player_turns). -/
def player_turns (dealerHand : List Card) :
    List PlayerState → List Card → Option (List PlayerState × List Card)
  | [], deck => some ([], deck)
  | p :: ps, deck =>
    match playerTurn dealerHand p deck with
    | none => none
    | some (p2, d2) =>
      match player_turns dealerHand ps d2 with
      | none => none
      | some (ps2, d3) => some (p2 :: ps2, d3)

/-- Post-player-turns short-circuit
(src/blackjack.rs, InProgressGame::check_if_all_players_finished):
if every player is bust or natural, finish without a dealer turn. -/
def check_if_all_players_finished (g : GameState) : IntermediateRoundResult :=
  if g.players.all (fun p => hand_is_bust p.hand || hand_is_natural p.hand) then
    IntermediateRoundResult.Finished
      (g.players.map (fun p =>
        (p, if hand_is_natural p.hand then PlayerRoundResult.Natural
            else PlayerRoundResult.Lose)))
      g.deck
  else
    IntermediateRoundResult.Unfinished g

/-- The dealer's hit/stand loop (src/blackjack.rs, the loop of
InProgressGame::dealer_turn): stop on bust or Stand, draw on Hit
(empty pop is a Rust panic). Returns the final hand and remaining deck. -/
def dealerLoop : List Card → List Card → Option (List Card × List Card)
  | hand, [] =>
    if hand_is_bust hand then some (hand, [])
    else
      match dealer_decide_action hand with
      | Action.Stand => some (hand, [])
      | Action.Hit => none
  | hand, c :: rest =>
    if hand_is_bust hand then some (hand, c :: rest)
    else
      match dealer_decide_action hand with
      | Action.Stand => some (hand, c :: rest)
      | Action.Hit => dealerLoop (hand ++ [c]) rest

/-- The dealer's turn (src/blackjack.rs, InProgressGame::dealer_turn):
if the dealer busts, every bust player loses and every other player wins;
otherwise continue to the showdown. -/
def dealer_turn (g : GameState) : Option IntermediateRoundResult :=
  match dealerLoop g.dealerHand g.deck with
  | none => none
  | some (h, d) =>
    if hand_is_bust h then
      some (IntermediateRoundResult.Finished
        (g.players.map (fun p =>
          (p, if hand_is_bust p.hand then PlayerRoundResult.Lose
              else PlayerRoundResult.Win)))
        d)
    else
      some (IntermediateRoundResult.Unfinished
        { g with dealerHand := h, deck := d })

/-- Showdown (src/blackjack.rs, InProgressGame::complete_round):
natural => Win, bust => Lose, otherwise compare hand values with the
dealer's. -/
def complete_round (g : GameState) :
    List (PlayerState × PlayerRoundResult) × List Card :=
  (g.players.map (fun p =>
    (p, if hand_is_natural p.hand then PlayerRoundResult.Win
        else if hand_is_bust p.hand then PlayerRoundResult.Lose
        else if get_hand_value p.hand < get_hand_value g.dealerHand then
          PlayerRoundResult.Lose
        else if get_hand_value g.dealerHand < get_hand_value p.hand then
          PlayerRoundResult.Win
        else PlayerRoundResult.Standoff)),
   g.deck)

/-- The round driver (src/blackjack.rs, InProgressGame::play_round): the
four exit points in forced order — natural short-circuit, all-players-done
short-circuit, dealer bust, showdown. `none` marks a Rust panic
(draw from an empty deck, or a dealer hand without an upcard). -/
def play_round (g : GameState) :
    Option (List (PlayerState × PlayerRoundResult) × List Card) :=
  match handle_naturals g with
  | IntermediateRoundResult.Finished r d => some (r, d)
  | IntermediateRoundResult.Unfinished g1 =>
    match player_turns g1.dealerHand g1.players g1.deck with
    | none => none
    | some (ps, d1) =>
      match check_if_all_players_finished
          { players := ps, dealerHand := g1.dealerHand, deck := d1 } with
      | IntermediateRoundResult.Finished r d2 => some (r, d2)
      | IntermediateRoundResult.Unfinished g3 =>
        match dealer_turn g3 with
        | none => none
        | some (IntermediateRoundResult.Finished r d3) => some (r, d3)
        | some (IntermediateRoundResult.Unfinished g4) =>
          some (complete_round g4)

/-- Concrete round: one player holding a natural, dealer on 19, used to
evaluate the natural short-circuit at a specific input. -/
def c1Game : GameState :=
  { players := [{ id := 0,
                  hand := [⟨Rank.ace, Suit.spade⟩, ⟨Rank.king, Suit.spade⟩],
                  policy := fun _ _ => Action.Stand }],
    dealerHand := [⟨Rank.ten, Suit.club⟩, ⟨Rank.nine, Suit.club⟩],
    deck := [] }

/-- Concrete round: one player holding a natural (queen + ace), dealer on 15,
with a nonempty deck. -/
def c1WGame : GameState :=
  { players := [{ id := 1,
                  hand := [⟨Rank.queen, Suit.heart⟩, ⟨Rank.ace, Suit.heart⟩],
                  policy := fun _ _ => Action.Stand }],
    dealerHand := [⟨Rank.king, Suit.club⟩, ⟨Rank.five, Suit.club⟩],
    deck := [⟨Rank.two, Suit.club⟩] }

/-- Concrete round: dealer natural against one natural player and one
14-point player. -/
def c8WGame : GameState :=
  { players := [{ id := 3,
                  hand := [⟨Rank.ace, Suit.heart⟩, ⟨Rank.queen, Suit.heart⟩],
                  policy := fun _ _ => Action.Stand },
                { id := 4,
                  hand := [⟨Rank.nine, Suit.heart⟩, ⟨Rank.five, Suit.heart⟩],
                  policy := fun _ _ => Action.Stand }],
    dealerHand := [⟨Rank.ace, Suit.diamond⟩, ⟨Rank.king, Suit.diamond⟩],
    deck := [⟨Rank.two, Suit.diamond⟩] }

/-- The outcome list play_round produces for c8WGame: the dealer's natural
gives the natural player a standoff and the other player a loss. -/
def c8WResults : List (PlayerState × PlayerRoundResult) :=
  c8WGame.players.map (fun p =>
    (p, if hand_is_natural p.hand then PlayerRoundResult.Standoff
        else PlayerRoundResult.Lose))

/-- Every card is worth at most 10 points. -/
lemma card_value_le_ten (c : Card) : card_value c ≤ 10 := by
  obtain ⟨r, s⟩ := c
  cases r <;> simp [card_value]

/-- The raw hand value is bounded by 10 points per card. -/
lemma raw_value_le (hand : List Card) :
    get_raw_hand_value hand ≤ 10 * hand.length := by
  induction hand with
  | nil => simp [get_raw_hand_value]
  | cons c cs ih =>
    have hc := card_value_le_ten c
    simp only [get_raw_hand_value, List.map_cons, List.sum_cons,
      List.length_cons] at ih ⊢
    omega

/-- A soft hand has raw value at most 11. -/
lemma soft_raw_le {raw : Nat} {hand : List Card}
    (h : is_soft_hand raw hand = true) : raw ≤ 11 := by
  simp [is_soft_hand] at h
  exact h.1

/-- Claim C2: is_soft_hand is true exactly when the raw value is at most 11
and the hand holds an ace; get_hand_value adds 10 exactly on soft hands to
the raw sum of fixed card values (ace 1, face cards 10); two aces are
worth 12. -/
theorem c2_hand_valuation (hand : List Card) :
    (is_soft_hand (get_raw_hand_value hand) hand = true ↔
      get_raw_hand_value hand ≤ 11 ∧ ∃ c ∈ hand, c.rank = Rank.ace)
    ∧ get_raw_hand_value hand = (hand.map card_value).sum
    ∧ (if is_soft_hand (get_raw_hand_value hand) hand = true
        then get_hand_value hand = get_raw_hand_value hand + 10
        else get_hand_value hand = get_raw_hand_value hand)
    ∧ card_value ⟨Rank.ace, Suit.club⟩ = 1
    ∧ card_value ⟨Rank.two, Suit.club⟩ = 2
    ∧ card_value ⟨Rank.nine, Suit.club⟩ = 9
    ∧ card_value ⟨Rank.ten, Suit.club⟩ = 10
    ∧ card_value ⟨Rank.jack, Suit.club⟩ = 10
    ∧ card_value ⟨Rank.queen, Suit.club⟩ = 10
    ∧ card_value ⟨Rank.king, Suit.club⟩ = 10
    ∧ get_hand_value [⟨Rank.ace, Suit.club⟩, ⟨Rank.ace, Suit.spade⟩] = 12 := by
  refine ⟨?_, rfl, ?_, by decide, by decide, by decide, by decide, by decide,
    by decide, by decide, by decide⟩
  · simp [is_soft_hand, List.any_eq_true]
  · by_cases hs : is_soft_hand (get_raw_hand_value hand) hand = true <;>
      simp [get_hand_value, hs]

/-- Claim C4: the dealer stands exactly at hand value 17 or more and hits
below; in particular it stands on hard 17 and soft 18 and hits on 12 and
soft 13. -/
theorem c4_dealer_policy (hand : List Card) :
    (dealer_decide_action hand = Action.Stand ↔ 17 ≤ get_hand_value hand)
    ∧ (dealer_decide_action hand = Action.Hit ↔ get_hand_value hand < 17)
    ∧ dealer_decide_action [⟨Rank.seven, Suit.club⟩, ⟨Rank.ten, Suit.spade⟩]
        = Action.Stand
    ∧ get_hand_value [⟨Rank.seven, Suit.club⟩, ⟨Rank.ten, Suit.spade⟩] = 17
    ∧ dealer_decide_action [⟨Rank.seven, Suit.club⟩, ⟨Rank.ace, Suit.spade⟩]
        = Action.Stand
    ∧ get_hand_value [⟨Rank.seven, Suit.club⟩, ⟨Rank.ace, Suit.spade⟩] = 18
    ∧ is_soft_hand
        (get_raw_hand_value [⟨Rank.seven, Suit.club⟩, ⟨Rank.ace, Suit.spade⟩])
        [⟨Rank.seven, Suit.club⟩, ⟨Rank.ace, Suit.spade⟩] = true
    ∧ dealer_decide_action [⟨Rank.four, Suit.club⟩, ⟨Rank.eight, Suit.spade⟩]
        = Action.Hit
    ∧ get_hand_value [⟨Rank.four, Suit.club⟩, ⟨Rank.eight, Suit.spade⟩] = 12
    ∧ dealer_decide_action [⟨Rank.ace, Suit.club⟩, ⟨Rank.two, Suit.spade⟩]
        = Action.Hit
    ∧ get_hand_value [⟨Rank.ace, Suit.club⟩, ⟨Rank.two, Suit.spade⟩] = 13
    ∧ is_soft_hand
        (get_raw_hand_value [⟨Rank.ace, Suit.club⟩, ⟨Rank.two, Suit.spade⟩])
        [⟨Rank.ace, Suit.club⟩, ⟨Rank.two, Suit.spade⟩] = true := by
  refine ⟨?_, ?_, by decide, by decide, by decide, by decide, by decide,
    by decide, by decide, by decide, by decide, by decide⟩
  · unfold dealer_decide_action
    split_ifs with h <;> simp [h]
  · unfold dealer_decide_action
    split_ifs with h
    · simp [h]
    · simp [h]
      omega

/-- Claim C9: a natural is exactly a two-card hand of value 21; three or
more cards are never natural; ace + king is natural, queen + king is not. -/
theorem c9_natural (hand : List Card) :
    (hand_is_natural hand = true ↔
      get_hand_value hand = 21 ∧ hand.length = 2)
    ∧ (3 ≤ hand.length → hand_is_natural hand = false)
    ∧ hand_is_natural [⟨Rank.ace, Suit.club⟩, ⟨Rank.king, Suit.spade⟩] = true
    ∧ hand_is_natural [⟨Rank.queen, Suit.heart⟩, ⟨Rank.king, Suit.diamond⟩]
        = false := by
  refine ⟨?_, ?_, by decide, by decide⟩
  · simp [hand_is_natural]
  · intro h3
    simp [hand_is_natural]
    omega

/-- Claim C9 witness: a three-card 21 (ace + seven + three) is not natural. -/
theorem c9_natural_witness :
    hand_is_natural
      [⟨Rank.ace, Suit.club⟩, ⟨Rank.seven, Suit.diamond⟩,
       ⟨Rank.three, Suit.heart⟩] = false :=
  (c9_natural _).2.1 (by decide)

/-- Claim C10: a hand of at most two cards is never bust: its value is at
most 21. -/
theorem c10_two_card_hands_not_bust (hand : List Card)
    (h2 : hand.length ≤ 2) :
    hand_is_bust hand = false ∧ get_hand_value hand ≤ 21 := by
  have hraw := raw_value_le hand
  by_cases hs : is_soft_hand (get_raw_hand_value hand) hand = true
  · have h11 := soft_raw_le hs
    constructor
    · simp [hand_is_bust, get_hand_value, hs]
      omega
    · simp [get_hand_value, hs]
      omega
  · constructor
    · simp [hand_is_bust, get_hand_value, hs]
      omega
    · simp [get_hand_value, hs]
      omega

/-- Claim C10 witness: the two-card hand queen + king is not bust. -/
theorem c10_two_card_hands_not_bust_witness :
    hand_is_bust [⟨Rank.queen, Suit.heart⟩, ⟨Rank.king, Suit.diamond⟩] = false
    ∧ get_hand_value [⟨Rank.queen, Suit.heart⟩, ⟨Rank.king, Suit.diamond⟩]
        ≤ 21 :=
  c10_two_card_hands_not_bust _ (by decide)

/-- A threshold comparison of the form the policies use: the action is
Stand exactly when the value reaches the threshold, Hit exactly below it. -/
lemma stand_hit_iff (t v : Nat) :
    ((if t ≤ v then Action.Stand else Action.Hit) = Action.Stand ↔ t ≤ v)
    ∧ ((if t ≤ v then Action.Stand else Action.Hit) = Action.Hit ↔ v < t) := by
  constructor
  · split_ifs with h
    · simp [h]
    · simp [h]
  · split_ifs with h
    · simp
      omega
    · simp
      omega

/-- Claim C5: the bot stands exactly when the hand value reaches the stand
threshold and hits below it, the threshold being 18 on soft hands and
otherwise 17 / 12 / 13 according to the dealer upcard rank groups
(ace and 7 to king / 4 to 6 / 2 to 3); the repository's own test cases are
included as concrete instances. -/
theorem c5_bot_policy (hand : List Card) (upcard : Card) :
    ((auto_decide_action hand upcard = Action.Stand ↔
      (if is_soft_hand (get_raw_hand_value hand) hand then (18 : Nat)
       else match upcard.rank with
         | Rank.ace | Rank.seven | Rank.eight | Rank.nine | Rank.ten
         | Rank.jack | Rank.queen | Rank.king => 17
         | Rank.four | Rank.five | Rank.six => 12
         | Rank.two | Rank.three => 13) ≤ get_hand_value hand)
    ∧ (auto_decide_action hand upcard = Action.Hit ↔
      get_hand_value hand <
      (if is_soft_hand (get_raw_hand_value hand) hand then (18 : Nat)
       else match upcard.rank with
         | Rank.ace | Rank.seven | Rank.eight | Rank.nine | Rank.ten
         | Rank.jack | Rank.queen | Rank.king => 17
         | Rank.four | Rank.five | Rank.six => 12
         | Rank.two | Rank.three => 13)))
    ∧ auto_decide_action [⟨Rank.ace, Suit.spade⟩, ⟨Rank.seven, Suit.spade⟩]
        ⟨Rank.ace, Suit.spade⟩ = Action.Stand
    ∧ auto_decide_action [⟨Rank.ace, Suit.spade⟩, ⟨Rank.six, Suit.spade⟩]
        ⟨Rank.ace, Suit.spade⟩ = Action.Hit
    ∧ auto_decide_action [⟨Rank.ten, Suit.spade⟩, ⟨Rank.seven, Suit.spade⟩]
        ⟨Rank.ten, Suit.spade⟩ = Action.Stand
    ∧ auto_decide_action [⟨Rank.ten, Suit.spade⟩, ⟨Rank.six, Suit.spade⟩]
        ⟨Rank.ten, Suit.spade⟩ = Action.Hit
    ∧ auto_decide_action [⟨Rank.ten, Suit.spade⟩, ⟨Rank.two, Suit.spade⟩]
        ⟨Rank.four, Suit.spade⟩ = Action.Stand
    ∧ auto_decide_action [⟨Rank.eight, Suit.spade⟩, ⟨Rank.three, Suit.spade⟩]
        ⟨Rank.four, Suit.spade⟩ = Action.Hit
    ∧ auto_decide_action [⟨Rank.ten, Suit.spade⟩, ⟨Rank.three, Suit.spade⟩]
        ⟨Rank.two, Suit.spade⟩ = Action.Stand
    ∧ auto_decide_action [⟨Rank.ten, Suit.spade⟩, ⟨Rank.two, Suit.spade⟩]
        ⟨Rank.two, Suit.spade⟩ = Action.Hit := by
  refine ⟨?_, by decide, by decide, by decide, by decide, by decide,
    by decide, by decide, by decide⟩
  unfold auto_decide_action
  by_cases hs : is_soft_hand (get_raw_hand_value hand) hand = true
  · simp only [hs, if_true]
    exact stand_hit_iff 18 (get_hand_value hand)
  · rw [if_neg hs, if_neg hs]
    obtain ⟨r, s⟩ := upcard
    cases r <;> exact stand_hit_iff _ _

/-- Claim C6 counterexample: the hard hand ace + ten + six holds an ace and
has value 17, yet the bot stands on it against a ten upcard, where the claim
requires a hit; moreover ace + ten + two (value 13) draws against a ten but
stands against a four, so the action does depend on the upcard. -/
theorem c6_counterexample :
    (([⟨Rank.ace, Suit.spade⟩, ⟨Rank.ten, Suit.club⟩,
      ⟨Rank.six, Suit.club⟩] : List Card).any (fun c => c.rank == Rank.ace)
      = true)
    ∧ get_hand_value
        [⟨Rank.ace, Suit.spade⟩, ⟨Rank.ten, Suit.club⟩,
         ⟨Rank.six, Suit.club⟩] = 17
    ∧ auto_decide_action
        [⟨Rank.ace, Suit.spade⟩, ⟨Rank.ten, Suit.club⟩, ⟨Rank.six, Suit.club⟩]
        ⟨Rank.ten, Suit.spade⟩ = Action.Stand
    ∧ Action.Stand ≠ Action.Hit
    ∧ get_hand_value
        [⟨Rank.ace, Suit.spade⟩, ⟨Rank.ten, Suit.club⟩,
         ⟨Rank.two, Suit.club⟩] = 13
    ∧ auto_decide_action
        [⟨Rank.ace, Suit.spade⟩, ⟨Rank.ten, Suit.club⟩, ⟨Rank.two, Suit.club⟩]
        ⟨Rank.ten, Suit.spade⟩ = Action.Hit
    ∧ auto_decide_action
        [⟨Rank.ace, Suit.spade⟩, ⟨Rank.ten, Suit.club⟩, ⟨Rank.two, Suit.club⟩]
        ⟨Rank.four, Suit.spade⟩ = Action.Stand := by
  decide

/-- Claim C6 as amended: for every bot hand that is soft (raw value at most
11 with at least one ace), the decision ignores the dealer upcard and
depends only on the hand value: Stand exactly at 18 or more, Hit exactly at
17 or less. -/
theorem c6_soft_hand_ignores_upcard (hand : List Card) (up1 up2 : Card)
    (hs : is_soft_hand (get_raw_hand_value hand) hand = true) :
    auto_decide_action hand up1 = auto_decide_action hand up2
    ∧ (auto_decide_action hand up1 = Action.Stand ↔
        18 ≤ get_hand_value hand)
    ∧ (auto_decide_action hand up1 = Action.Hit ↔
        get_hand_value hand ≤ 17) := by
  unfold auto_decide_action
  simp only [hs, if_true]
  refine ⟨by trivial, (stand_hit_iff 18 (get_hand_value hand)).1, ?_⟩
  rw [(stand_hit_iff 18 (get_hand_value hand)).2]
  omega

/-- Claim C6 amended witness: the soft hand ace + seven. -/
theorem c6_soft_hand_ignores_upcard_witness :
    auto_decide_action [⟨Rank.ace, Suit.club⟩, ⟨Rank.seven, Suit.club⟩]
        ⟨Rank.two, Suit.club⟩
      = auto_decide_action [⟨Rank.ace, Suit.club⟩, ⟨Rank.seven, Suit.club⟩]
        ⟨Rank.king, Suit.club⟩
    ∧ (auto_decide_action [⟨Rank.ace, Suit.club⟩, ⟨Rank.seven, Suit.club⟩]
        ⟨Rank.two, Suit.club⟩ = Action.Stand ↔
        18 ≤ get_hand_value [⟨Rank.ace, Suit.club⟩, ⟨Rank.seven, Suit.club⟩])
    ∧ (auto_decide_action [⟨Rank.ace, Suit.club⟩, ⟨Rank.seven, Suit.club⟩]
        ⟨Rank.two, Suit.club⟩ = Action.Hit ↔
        get_hand_value [⟨Rank.ace, Suit.club⟩, ⟨Rank.seven, Suit.club⟩]
          ≤ 17) :=
  c6_soft_hand_ignores_upcard _ _ _ (by decide)

/-- Claim C3: settlement with an active bet credits bet + floor(payout *
bet) on Natural, twice the bet on Win, exactly the bet on Standoff, and
nothing on Lose; the bet is always cleared and the hand emptied; without a
bet the money is untouched; bet 10 at payout 3/2 on a Natural credits
exactly 25. -/
theorem c3_settlement (m b : Nat) (mo : Option Nat) (hand hand2 : List Card)
    (r : PlayerRoundResult) (q : ℚ) :
    handle_round_result ⟨some m, some b, hand⟩ PlayerRoundResult.Natural q
      = some ⟨some (m + (b + (Int.floor (q * (b : ℚ))).toNat)), none, []⟩
    ∧ handle_round_result ⟨some m, some b, hand⟩ PlayerRoundResult.Win q
      = some ⟨some (m + 2 * b), none, []⟩
    ∧ handle_round_result ⟨some m, some b, hand⟩ PlayerRoundResult.Standoff q
      = some ⟨some (m + b), none, []⟩
    ∧ handle_round_result ⟨some m, some b, hand⟩ PlayerRoundResult.Lose q
      = some ⟨some m, none, []⟩
    ∧ handle_round_result ⟨mo, none, hand2⟩ r q = some ⟨mo, none, []⟩
    ∧ handle_round_result ⟨some m, some 10, hand⟩ PlayerRoundResult.Natural
        (3 / 2)
      = some ⟨some (m + 25), none, []⟩ := by
  refine ⟨rfl, ?_, rfl, rfl, rfl, ?_⟩
  · simp only [handle_round_result]
    norm_num
    omega
  · simp only [handle_round_result]
    norm_num
    rfl

/-- Each multideck holds 52 cards per configured deck. -/
lemma create_multideck_length (n : Nat) :
    (create_multideck n).length = n * 52 := by
  induction n with
  | zero => rfl
  | succ k ih =>
    simp only [create_multideck, List.length_append, ih]
    have h52 : standard_deck.length = 52 := by rfl
    rw [h52]
    ring

/-- Claim C7: the reshuffle threshold is max(40, num_decks * 52 / 5) with
floor division; a carried-over deck is reused exactly when strictly longer
than the threshold and otherwise replaced by a fresh shuffled multideck of
num_decks * 52 cards; for six decks the threshold is 62, so length 60 is
replaced and length 63 is reused. -/
theorem c7_reshuffle (shuffle : List Card → List Card)
    (hs : ∀ l, (shuffle l).Perm l) (n : Nat) (leftover : List Card) :
    get_reshuffle_number n = max 40 (n * 52 / 5)
    ∧ (get_reshuffle_number n < leftover.length →
        from_previous_round_deck shuffle n leftover = leftover)
    ∧ (leftover.length ≤ get_reshuffle_number n →
        from_previous_round_deck shuffle n leftover
          = shuffle (create_multideck n)
        ∧ (from_previous_round_deck shuffle n leftover).length = n * 52)
    ∧ get_reshuffle_number 6 = 62
    ∧ (leftover.length = 60 →
        from_previous_round_deck shuffle 6 leftover
          = shuffle (create_multideck 6))
    ∧ (leftover.length = 63 →
        from_previous_round_deck shuffle 6 leftover = leftover) := by
  have h62 : get_reshuffle_number 6 = 62 := by decide
  refine ⟨rfl, ?_, ?_, h62, ?_, ?_⟩
  · intro h
    simp [from_previous_round_deck, h]
  · intro h
    have hnot : ¬ get_reshuffle_number n < leftover.length := by omega
    refine ⟨by simp [from_previous_round_deck, hnot], ?_⟩
    simp only [from_previous_round_deck, if_neg hnot]
    calc (shuffle (create_multideck n)).length
        = (create_multideck n).length := (hs (create_multideck n)).length_eq
      _ = n * 52 := create_multideck_length n
  · intro h60
    have hnot : ¬ get_reshuffle_number 6 < leftover.length := by omega
    simp [from_previous_round_deck, hnot]
  · intro h63
    have hlt : get_reshuffle_number 6 < leftover.length := by omega
    simp [from_previous_round_deck, hlt]

/-- Claim C7 witness: with the identity permutation as the shuffle, the
six-deck threshold evaluates to 62. -/
theorem c7_reshuffle_witness : get_reshuffle_number 6 = 62 :=
  (c7_reshuffle id (fun l => List.Perm.refl l) 6 []).2.2.2.1

/-- Claim C1 counterexample: with the dealer on 19 and the single player
holding a natural, play_round ends with outcome Natural, which is not the
outcome Win the claim asserts. -/
theorem c1_counterexample :
    hand_is_natural c1Game.dealerHand = false
    ∧ c1Game.players.all (fun p => hand_is_natural p.hand) = true
    ∧ (play_round c1Game).map (fun rd => rd.1.map Prod.snd)
        = some [PlayerRoundResult.Natural]
    ∧ PlayerRoundResult.Natural ≠ PlayerRoundResult.Win := by
  refine ⟨by decide, by decide, by decide, by decide⟩

/-- Claim C1 as amended: if the dealer's hand is not natural and every
player's hand is natural, play_round ends the round immediately — the deck
is returned untouched, so no turn was taken — with outcome Natural for
every player. -/
theorem c1_all_naturals_short_circuit (g : GameState)
    (hd : hand_is_natural g.dealerHand = false)
    (hp : g.players.all (fun p => hand_is_natural p.hand) = true) :
    play_round g
      = some (g.players.map (fun p => (p, PlayerRoundResult.Natural)),
          g.deck) := by
  unfold play_round handle_naturals
  simp [hd, hp]

/-- Claim C1 amended witness: a queen + ace player against a dealer 15. -/
theorem c1_all_naturals_short_circuit_witness :
    play_round c1WGame
      = some (c1WGame.players.map (fun p => (p, PlayerRoundResult.Natural)),
          c1WGame.deck) :=
  c1_all_naturals_short_circuit c1WGame (by decide) (by decide)

/-- Pairing each player with an outcome preserves the id list. -/
lemma map_pair_ids (ps : List PlayerState)
    (f : PlayerState → PlayerRoundResult) :
    (ps.map (fun p => (p, f p))).map (fun x => x.1.id)
      = ps.map (fun p => p.id) := by
  induction ps with
  | nil => rfl
  | cons p ps ih => simp [ih]

/-- A player's turn changes only their hand, never their id. -/
lemma playerTurn_id (dealerHand : List Card) (p : PlayerState)
    (deck : List Card) (p2 : PlayerState) (d2 : List Card)
    (h : playerTurn dealerHand p deck = some (p2, d2)) : p2.id = p.id := by
  unfold playerTurn at h
  split at h
  · simp only [Option.some.injEq, Prod.mk.injEq] at h
    rw [← h.1]
  · split at h
    · simp at h
    · simp only [Option.some.injEq, Prod.mk.injEq] at h
      rw [← h.1]

/-- The player turns preserve the list of player ids in order. -/
lemma player_turns_ids (dealerHand : List Card) (ps : List PlayerState) :
    ∀ (deck : List Card) (ps2 : List PlayerState) (d2 : List Card),
      player_turns dealerHand ps deck = some (ps2, d2) →
      ps2.map (fun p => p.id) = ps.map (fun p => p.id) := by
  induction ps with
  | nil =>
    intro deck ps2 d2 h
    simp only [player_turns, Option.some.injEq, Prod.mk.injEq] at h
    rw [← h.1]
  | cons p ps ih =>
    intro deck ps2 d2 h
    rw [player_turns] at h
    cases hpt : playerTurn dealerHand p deck with
    | none =>
      rw [hpt] at h
      simp at h
    | some pd =>
      obtain ⟨p2, dd2⟩ := pd
      rw [hpt] at h
      dsimp only at h
      cases hrec : player_turns dealerHand ps dd2 with
      | none =>
        rw [hrec] at h
        simp at h
      | some psd =>
        obtain ⟨ps3, d3⟩ := psd
        rw [hrec] at h
        dsimp only at h
        simp only [Option.some.injEq, Prod.mk.injEq] at h
        rw [← h.1]
        simp only [List.map_cons]
        rw [playerTurn_id dealerHand p deck p2 dd2 hpt, ih dd2 ps3 d3 hrec]

/-- When the natural check finishes the round, the results pair the
players in table order and the deck is returned untouched. -/
lemma handle_naturals_finished (g : GameState)
    (r : List (PlayerState × PlayerRoundResult)) (d : List Card)
    (h : handle_naturals g = IntermediateRoundResult.Finished r d) :
    r.map (fun x => x.1.id) = g.players.map (fun p => p.id) ∧ d = g.deck := by
  unfold handle_naturals at h
  split at h
  · simp only [IntermediateRoundResult.Finished.injEq] at h
    rw [← h.1, ← h.2]
    exact ⟨map_pair_ids _ _, rfl⟩
  · split at h
    · simp only [IntermediateRoundResult.Finished.injEq] at h
      rw [← h.1, ← h.2]
      exact ⟨map_pair_ids _ _, rfl⟩
    · simp at h

/-- When the natural check does not finish the round, the game is
unchanged. -/
lemma handle_naturals_unfinished (g g1 : GameState)
    (h : handle_naturals g = IntermediateRoundResult.Unfinished g1) :
    g1 = g := by
  unfold handle_naturals at h
  split at h
  · simp at h
  · split at h
    · simp at h
    · simp only [IntermediateRoundResult.Unfinished.injEq] at h
      rw [h]

/-- When the all-players-finished check ends the round, the results pair
the players in table order and the deck is returned untouched. -/
lemma check_finished (g : GameState)
    (r : List (PlayerState × PlayerRoundResult)) (d : List Card)
    (h : check_if_all_players_finished g
      = IntermediateRoundResult.Finished r d) :
    r.map (fun x => x.1.id) = g.players.map (fun p => p.id) ∧ d = g.deck := by
  unfold check_if_all_players_finished at h
  split at h
  · simp only [IntermediateRoundResult.Finished.injEq] at h
    rw [← h.1, ← h.2]
    exact ⟨map_pair_ids _ _, rfl⟩
  · simp at h

/-- When the all-players-finished check does not end the round, the game
is unchanged. -/
lemma check_unfinished (g g1 : GameState)
    (h : check_if_all_players_finished g
      = IntermediateRoundResult.Unfinished g1) :
    g1 = g := by
  unfold check_if_all_players_finished at h
  split at h
  · simp at h
  · simp only [IntermediateRoundResult.Unfinished.injEq] at h
    rw [h]

/-- When the dealer turn ends the round by busting, the results pair the
players in table order. -/
lemma dealer_turn_finished (g : GameState)
    (r : List (PlayerState × PlayerRoundResult)) (d : List Card)
    (h : dealer_turn g = some (IntermediateRoundResult.Finished r d)) :
    r.map (fun x => x.1.id) = g.players.map (fun p => p.id) := by
  unfold dealer_turn at h
  split at h
  · simp at h
  · split at h
    · simp only [Option.some.injEq, IntermediateRoundResult.Finished.injEq]
        at h
      rw [← h.1]
      exact map_pair_ids _ _
    · simp at h

/-- When the dealer turn does not end the round, the players are
unchanged. -/
lemma dealer_turn_unfinished (g g4 : GameState)
    (h : dealer_turn g = some (IntermediateRoundResult.Unfinished g4)) :
    g4.players = g.players := by
  unfold dealer_turn at h
  split at h
  · simp at h
  · split at h
    · simp at h
    · simp only [Option.some.injEq, IntermediateRoundResult.Unfinished.injEq]
        at h
      rw [← h]

/-- The showdown pairs the players in table order. -/
lemma complete_round_ids (g : GameState) :
    ((complete_round g).1).map (fun x => x.1.id)
      = g.players.map (fun p => p.id) :=
  map_pair_ids _ _

/-- Equal id lists force equal lengths. -/
lemma ids_length {r : List (PlayerState × PlayerRoundResult)}
    {ps : List PlayerState}
    (h : r.map (fun x => x.1.id) = ps.map (fun p => p.id)) :
    r.length = ps.length := by
  have hl := congrArg List.length h
  simpa using hl

/-- Claim C8: whenever play_round returns (it panics only on deck
exhaustion or a missing upcard), it emits exactly one outcome per player,
paired with the players in table order (their id lists coincide, so in
particular the counts are equal and the dealer gets no outcome), alongside
the leftover deck, and the outcome list was produced by exactly one of the
four exit points: the natural check, the all-players-finished check, the
dealer bust, or the showdown. -/
theorem c8_one_outcome_per_player (g : GameState)
    (r : List (PlayerState × PlayerRoundResult)) (d : List Card)
    (h : play_round g = some (r, d)) :
    r.map (fun x => x.1.id) = g.players.map (fun p => p.id)
    ∧ r.length = g.players.length
    ∧ (handle_naturals g = IntermediateRoundResult.Finished r d
       ∨ ∃ g1 ps d1,
           handle_naturals g = IntermediateRoundResult.Unfinished g1
           ∧ player_turns g1.dealerHand g1.players g1.deck = some (ps, d1)
           ∧ (check_if_all_players_finished ⟨ps, g1.dealerHand, d1⟩
                = IntermediateRoundResult.Finished r d
              ∨ ∃ g3,
                  check_if_all_players_finished ⟨ps, g1.dealerHand, d1⟩
                    = IntermediateRoundResult.Unfinished g3
                  ∧ (dealer_turn g3
                      = some (IntermediateRoundResult.Finished r d)
                     ∨ ∃ g4,
                         dealer_turn g3
                           = some (IntermediateRoundResult.Unfinished g4)
                         ∧ complete_round g4 = (r, d)))) := by
  unfold play_round at h
  cases hn : handle_naturals g with
  | Finished r0 d0 =>
    rw [hn] at h
    simp only [Option.some.injEq, Prod.mk.injEq] at h
    obtain ⟨hr, hd⟩ := h
    subst hr
    subst hd
    have hids := (handle_naturals_finished g r0 d0 hn).1
    exact ⟨hids, ids_length hids, Or.inl rfl⟩
  | Unfinished g1 =>
    rw [hn] at h
    dsimp only at h
    have hg1 : g1 = g := handle_naturals_unfinished g g1 hn
    cases hpt : player_turns g1.dealerHand g1.players g1.deck with
    | none =>
      rw [hpt] at h
      simp at h
    | some psd =>
      obtain ⟨ps, d1⟩ := psd
      rw [hpt] at h
      dsimp only at h
      have hpids : ps.map (fun p => p.id) = g.players.map (fun p => p.id) := by
        rw [player_turns_ids g1.dealerHand g1.players g1.deck ps d1 hpt, hg1]
      cases hcf : check_if_all_players_finished ⟨ps, g1.dealerHand, d1⟩ with
      | Finished r2 d2 =>
        rw [hcf] at h
        simp only [Option.some.injEq, Prod.mk.injEq] at h
        obtain ⟨hr, hd⟩ := h
        subst hr
        subst hd
        have hids := (check_finished _ r2 d2 hcf).1
        refine ⟨hids.trans hpids, ids_length (hids.trans hpids), Or.inr ?_⟩
        exact ⟨g1, ps, d1, rfl, hpt, Or.inl hcf⟩
      | Unfinished g3 =>
        rw [hcf] at h
        dsimp only at h
        have hg3 : g3 = (⟨ps, g1.dealerHand, d1⟩ : GameState) :=
          check_unfinished _ g3 hcf
        cases hdt : dealer_turn g3 with
        | none =>
          rw [hdt] at h
          simp at h
        | some ir =>
          cases ir with
          | Finished r3 d3 =>
            rw [hdt] at h
            simp only [Option.some.injEq, Prod.mk.injEq] at h
            obtain ⟨hr, hd⟩ := h
            subst hr
            subst hd
            have hids := dealer_turn_finished g3 r3 d3 hdt
            have hids2 : r3.map (fun x => x.1.id)
                = g.players.map (fun p => p.id) := by
              rw [hids, hg3]
              exact hpids
            refine ⟨hids2, ids_length hids2, Or.inr ?_⟩
            exact ⟨g1, ps, d1, rfl, hpt, Or.inr ⟨g3, hcf, Or.inl hdt⟩⟩
          | Unfinished g4 =>
            rw [hdt] at h
            dsimp only at h
            simp only [Option.some.injEq] at h
            have hplayers : g4.players = g3.players :=
              dealer_turn_unfinished g3 g4 hdt
            have hids : r.map (fun x => x.1.id)
                = g.players.map (fun p => p.id) := by
              have hc := complete_round_ids g4
              have hr1 : (complete_round g4).1 = r := by rw [h]
              rw [hr1] at hc
              rw [hc, hplayers, hg3]
              exact hpids
            refine ⟨hids, ids_length hids, Or.inr ?_⟩
            exact ⟨g1, ps, d1, rfl, hpt, Or.inr ⟨g3, hcf, Or.inr ⟨g4, hdt, h⟩⟩⟩

/-- Claim C8 witness: the two-player round c8WGame, where the dealer's
natural ends the round at the first exit point. -/
theorem c8_one_outcome_per_player_witness :
    c8WResults.map (fun x => x.1.id) = c8WGame.players.map (fun p => p.id)
    ∧ c8WResults.length = c8WGame.players.length :=
  ⟨(c8_one_outcome_per_player c8WGame c8WResults c8WGame.deck rfl).1,
   (c8_one_outcome_per_player c8WGame c8WResults c8WGame.deck rfl).2.1⟩

end Blackjack
